import Mathlib

/-!
Verification development for the Sora video studio single-page application.

The development shallowly embeds the pure response-normalization and polling
logic of `src/hooks/useWebhookClient.ts`, the state-store mutations of
`src/state/useAppStore.ts`, and the video-submission flow of
`src/components/VideoSection.tsx`, and proves the spec's testable properties
about them.

JSON values exchanged with the webhooks are modelled by the inductive `Json`;
JavaScript objects are association lists of string keys (a parsed JSON object
has pairwise-distinct keys, which theorems assume where it matters).  A missing
property (`undefined`) is `Option.none`, while JSON `null` is `Json.null`; the
JavaScript operators `??` (nullish coalescing) and truthiness tests are
modelled explicitly.
-/

/-- A JSON value as received from a webhook.  Numbers are modelled as integers:
none of the verified logic inspects numeric values beyond truthiness, and the
only numeric truthiness boundary is zero. -/
inductive Json where
  | null : Json
  | bool (b : Bool) : Json
  | num (n : Int) : Json
  | str (s : String) : Json
  | arr (elems : List Json) : Json
  | obj (fields : List (String × Json)) : Json

namespace Json

/-- Property access `value[key]` on a JavaScript value: only plain objects have
string-keyed own properties here; on every other value the access yields
`undefined` (`none`). -/
def get : Json → String → Option Json
  | obj fields, key => fields.lookup key
  | _, _ => none

/-- JavaScript truthiness of a value: `null`, `false`, `0` and `""` are falsy;
every object and array is truthy. -/
def truthy : Json → Bool
  | null => false
  | bool b => b
  | num n => n != 0
  | str s => s ≠ ""
  | arr _ => true
  | obj _ => true

/-- Truthiness of a possibly-missing value: `undefined` is falsy. -/
def truthyOpt : Option Json → Bool
  | none => false
  | some v => truthy v

/-- The JavaScript nullish-coalescing operator `a ?? b`: `b` is taken exactly
when `a` is `undefined` or `null`. -/
def coalesce : Option Json → Option Json → Option Json
  | none, b => b
  | some null, b => b
  | some v, _ => some v

/-- Whether `value` is a record in the sense of `isRecord` in `useWebhookClient.ts`:
an object that is neither `null` nor an array. -/
def isRecord : Json → Bool
  | obj _ => true
  | _ => false

end Json

/-! ## Alias key lists (`useWebhookClient.ts`, lines 31-51) -/

def VIDEO_URL_KEYS : List String :=
  ["videoUrl", "video_url", "url", "sora_video_result", "result"]

def VIDEO_BASE64_KEYS : List String :=
  ["videoBase64", "video_base64", "base64", "videoData", "video_data",
   "binary", "binaryData", "data"]

def MIME_TYPE_KEYS : List String :=
  ["mimeType", "mimetype", "contentType", "content_type", "type"]

def FILE_NAME_KEYS : List String := ["fileName", "filename", "name"]

def EXCLUDED_META_KEYS : List String :=
  VIDEO_BASE64_KEYS ++ VIDEO_URL_KEYS ++
    ["videoBinary", "video_binary", "rawVideo", "raw_video"]

/-! ## String helpers modelling the JavaScript runtime -/

/-- Whitespace as matched by the JavaScript regular-expression class `\s` and
stripped by `String.prototype.trim`, restricted to the characters the embedded
logic can meet; modelled by Lean's whitespace predicate. -/
def jsIsWhitespace (c : Char) : Bool := c.isWhitespace

/-- Model of `String.prototype.trim`: remove leading and trailing whitespace. -/
def jsTrim (s : String) : String :=
  ⟨((s.toList.dropWhile jsIsWhitespace).reverse.dropWhile
      jsIsWhitespace).reverse⟩

/-- Model of `String.prototype.startsWith`. -/
def jsStartsWith (s prefixStr : String) : Bool :=
  prefixStr.toList.isPrefixOf s.toList

/-- Model of `value.replace(/\s/g, "")`: remove every whitespace character. -/
def stripWhitespace (s : String) : String :=
  ⟨s.toList.filter (fun c => !jsIsWhitespace c)⟩

/-- A character of the base64 alphabet (`A-Z`, `a-z`, `0-9`, `+`, `/`). -/
def isBase64Char (c : Char) : Bool :=
  c.isAlpha || c.isDigit || c == '+' || c == '/'

/-- Modelled from the platform: `globalThis.atob` succeeds exactly on
forgiving-base64 input (WHATWG Infra): after removing ASCII whitespace and up
to two trailing `=` padding characters of a length divisible by four, every
character is in the base64 alphabet and the length is not `1 (mod 4)`. -/
def atobAccepts (s : String) : Bool :=
  let l := s.toList.filter (fun c => !jsIsWhitespace c)
  let l :=
    if l.length % 4 == 0 then
      match l.reverse with
      | '=' :: '=' :: rest => rest.reverse
      | '=' :: rest => rest.reverse
      | _ => l
    else l
  l.length % 4 != 1 && l.all isBase64Char

/-! ## `useWebhookClient.ts` — pure normalization helpers -/

/-- Function `pickString` (lines 56-65): the first alias key whose value is a string
with non-empty trim yields that trimmed string. -/
def pickString (source : List (String × Json)) (keys : List String) :
    Option String :=
  match keys with
  | [] => none
  | key :: rest =>
    match source.lookup key with
    | some (Json.str s) =>
      if jsTrim s ≠ "" then some (jsTrim s) else pickString source rest
    | _ => pickString source rest

/-- Function `createDataUrlFromBase64` (lines 67-88): an empty value yields nothing; a
value already starting with `data:` is passed through trimmed; otherwise the
whitespace-stripped payload is validated with `atob` and wrapped as
`data:<mime>;base64,<payload>`, the mime type falling back to `video/mp4`. -/
def createDataUrlFromBase64 (value : String) (fallbackMime : String) :
    Option String :=
  if value = "" then none
  else
    let trimmed := jsTrim value
    if jsStartsWith trimmed "data:" then some trimmed
    else
      let cleaned := stripWhitespace trimmed
      let mimeType := if fallbackMime = "" then "video/mp4" else fallbackMime
      if atobAccepts cleaned then
        some ("data:" ++ mimeType ++ ";base64," ++ cleaned)
      else none

/-- The keep-condition of the filter inside `sanitizeMeta` (lines 91-96): an
entry is dropped exactly when its value is a string and its key is an
excluded video-payload alias. -/
def sanitizeKeep (kv : String × Json) : Bool :=
  match kv.2 with
  | Json.str _ => decide (kv.1 ∉ EXCLUDED_META_KEYS)
  | _ => true

/-- Function `sanitizeMeta` (lines 90-103): drop every entry whose key is an excluded
video-payload alias and whose value is a string; an empty result is
`undefined`. -/
def sanitizeMeta (source : List (String × Json)) :
    Option (List (String × Json)) :=
  let entries := source.filter sanitizeKeep
  if entries.isEmpty then none else some entries

/-- Result record of `normalizeVideoPayload`. -/
structure NormalizedVideo where
  videoUrl : Option String
  videoFileName : Option String
  videoMimeType : Option String
  deriving Repr, DecidableEq

/-- Function `normalizeVideoPayload` (lines 105-128): resolve the video URL from the
URL alias keys, falling back to a data URL built from the base64 alias keys;
the mime type falls back to `video/mp4` for data URLs. -/
def normalizeVideoPayload (source : List (String × Json)) : NormalizedVideo :=
  let videoUrl0 := pickString source VIDEO_URL_KEYS
  let videoMimeType := pickString source MIME_TYPE_KEYS
  let videoFileName := pickString source FILE_NAME_KEYS
  let videoUrl :=
    match videoUrl0 with
    | some u => some u
    | none =>
      match pickString source VIDEO_BASE64_KEYS with
      | some base64 =>
        createDataUrlFromBase64 base64 (videoMimeType.getD "video/mp4")
      | none => none
  { videoUrl := videoUrl
    videoFileName := videoFileName
    videoMimeType :=
      match videoMimeType with
      | some m => some m
      | none =>
        match videoUrl with
        | some u => if jsStartsWith u "data:" then some "video/mp4" else none
        | none => none }

/-! ## `callPromptWebhook` (lines 130-188) — prompt extraction -/

/-- Function `extractPrompt` (lines 152-166): a bare string is taken as is; on an
object (or any non-null object-typed value) the fields `prompt`, `output`,
`text`, `message` are tried in order, each taken when its value is a string. -/
def extractPrompt (value : Json) : Option String :=
  match value with
  | Json.str s => some s
  | Json.obj fields =>
    match fields.lookup "prompt" with
    | some (Json.str s) => some s
    | _ =>
      match fields.lookup "output" with
      | some (Json.str s) => some s
      | _ =>
        match fields.lookup "text" with
        | some (Json.str s) => some s
        | _ =>
          match fields.lookup "message" with
          | some (Json.str s) => some s
          | _ => none
  | Json.arr _ => none
  | _ => none

/-- The loop of lines 170-177: scan the array, keeping the first extraction
that is truthy (a non-empty string); a falsy extraction is overwritten by the
next entry's. -/
def extractPromptFromArray : List Json → Option String
  | [] => none
  | entry :: rest =>
    match extractPrompt entry with
    | some s => if s ≠ "" then some s else extractPromptFromArray rest
    | none => extractPromptFromArray rest

/-- The response-processing tail of `callPromptWebhook` (lines 150-187) on an
already-parsed JSON body: extract the prompt text, fail when it is missing or
empty, and return it trimmed. -/
def callPromptWebhookBody (data : Json) : Except String String :=
  let promptText :=
    match data with
    | Json.arr entries => extractPromptFromArray entries
    | _ => extractPrompt data
  match promptText with
  | some s =>
    if s = "" then Except.error "Webhook-Antwort enthielt keinen Prompt-Text."
    else Except.ok (jsTrim s)
  | none => Except.error "Webhook-Antwort enthielt keinen Prompt-Text."

/-! ## `sendVideoWebhook` (lines 190-236) — response normalization -/

/-- The object spread `{ ...a, ...b }` as a key-to-value map: `b`'s entries
override `a`'s on key collision. -/
def spreadMerge (a b : List (String × Json)) : List (String × Json) :=
  a.filter (fun kv => (b.lookup kv.1).isNone) ++ b

/-- The normalized result of `sendVideoWebhook`.  Fields produced by raw
nullish-coalescing chains keep the JSON value that won (`Option Json`); fields
produced by `normalizeVideoPayload` alone are strings. -/
structure VideoWebhookResponse where
  jobId : Option Json
  statusUrl : Option Json
  videoUrl : Option Json
  videoFileName : Option String
  videoMimeType : Option String
  meta : Option (List (String × Json))

/-- The combined metadata of lines 223-226 (also 277-280): the sanitized
top-level fields merged with the sanitized nested `meta` record, nested values
taking precedence; `undefined` when both sides are. -/
def combineMeta (fields : List (String × Json)) :
    Option (List (String × Json)) :=
  let baseMeta := sanitizeMeta fields
  let nestedMeta :=
    match fields.lookup "meta" with
    | some (Json.obj m) => sanitizeMeta m
    | _ => none
  match baseMeta, nestedMeta with
  | none, none => none
  | _, _ => some (spreadMerge (baseMeta.getD []) (nestedMeta.getD []))

/-- The response-processing tail of `sendVideoWebhook` (lines 217-236) on an
already-parsed JSON body: reject non-records, then normalize the video
payload, resolve `jobId`/`statusUrl` by nullish coalescing over alias keys,
and attach the combined metadata. -/
def sendVideoWebhookBody (data : Json) : Except String VideoWebhookResponse :=
  match data with
  | Json.obj fields =>
    let n := normalizeVideoPayload fields
    Except.ok
      { jobId := Json.coalesce (fields.lookup "jobId") (fields.lookup "id")
        statusUrl :=
          Json.coalesce (fields.lookup "statusUrl")
            (Json.coalesce (fields.lookup "status_url")
              (fields.lookup "statusURI"))
        videoUrl :=
          Json.coalesce (n.videoUrl.map Json.str)
            (Json.coalesce (fields.lookup "videoUrl")
              (Json.coalesce (fields.lookup "video_url")
                (fields.lookup "url")))
        videoFileName := n.videoFileName
        videoMimeType := n.videoMimeType
        meta := combineMeta fields }
  | _ => Except.error "Ungueltige Antwort vom Video-Webhook"

/-! ## `pollVideoStatus` (lines 238-300) -/

/-- Strict equality `value === "lit"` between a JSON value and a string
literal: true only for an equal string. -/
def Json.strictEqStr : Json → String → Bool
  | Json.str s, t => s == t
  | _, _ => false

/-- The `VideoStatus` record returned by a terminal poll iteration. -/
structure VideoStatusResult where
  status : String
  videoUrl : Option Json
  videoFileName : Option String
  videoMimeType : Option String
  meta : Option (List (String × Json))

/-- Line 272-273: `data.status ?? data.state ?? (data.videoUrl || data.url ?
"completed" : "processing")`. -/
def statusValue (fields : List (String × Json)) : Json :=
  let fallback :=
    if Json.truthyOpt (fields.lookup "videoUrl") ||
        Json.truthyOpt (fields.lookup "url") then
      Json.str "completed"
    else Json.str "processing"
  match
    Json.coalesce (Json.coalesce (fields.lookup "status")
      (fields.lookup "state")) (some fallback)
  with
  | some v => v
  | none => fallback

/-- The completed-status result built at lines 276-287. -/
def completedStatus (fields : List (String × Json)) : VideoStatusResult :=
  let n := normalizeVideoPayload fields
  { status := "completed"
    videoUrl :=
      Json.coalesce (n.videoUrl.map Json.str)
        (Json.coalesce (fields.lookup "videoUrl") (fields.lookup "url"))
    videoFileName := n.videoFileName
    videoMimeType := n.videoMimeType
    meta := combineMeta fields }

/-- The poll loop of `pollVideoStatus` (lines 250-299) under an explicit time
model: the `i`-th GET request is answered instantly with body `env i`, every
response has a successful HTTP status, and each sleep advances the clock by
`interval`, so the abort check and request of iteration `i` happen at elapsed
time `i * interval`.  `aborted i` is the cancellation signal's state at
iteration `i`'s check.  The result pairs the outcome (`none` when the supplied
fuel ran out before the loop terminated - an artifact of the embedding, not of
the loop, which has no iteration bound of its own) with the elapsed times of
the GET requests actually issued. -/
def pollVideoStatusLoop (env : Nat → Json) (aborted : Nat → Bool)
    (interval timeout : Nat) :
    Nat → Nat → Option (Except String VideoStatusResult) × List Nat
  | _, 0 => (none, [])
  | i, fuel + 1 =>
    if aborted i then (some (Except.error "Abgebrochen"), [])
    else
      let t := i * interval
      match env i with
      | Json.obj fields =>
        let st := statusValue fields
        if st.strictEqStr "completed" then
          (some (Except.ok (completedStatus fields)), [t])
        else if st.strictEqStr "failed" then
          (some (Except.ok
            { status := "failed", videoUrl := none, videoFileName := none,
              videoMimeType := none, meta := some fields }), [t])
        else if timeout < t then
          (some (Except.error "Timeout beim Abfragen des Video-Status"), [t])
        else
          let rest := pollVideoStatusLoop env aborted interval timeout (i + 1) fuel
          (rest.1, t :: rest.2)
      | _ =>
        (some (Except.error "Ungueltige Status-Antwort vom Video-Webhook"), [t])

/-- The caller-facing options of `pollVideoStatus`; `none` means the option
was not supplied. -/
structure PollOptions where
  intervalMs : Option Nat
  timeoutMs : Option Nat

/-- Function `pollVideoStatus` (lines 238-300): run the poll loop from iteration 0 with
the defaults of lines 246-247 (interval 5000 ms, timeout 6 minutes) filled
in. -/
def pollVideoStatusModel (env : Nat → Json) (aborted : Nat → Bool)
    (options : PollOptions) (fuel : Nat) :
    Option (Except String VideoStatusResult) × List Nat :=
  pollVideoStatusLoop env aborted (options.intervalMs.getD 5000)
    (options.timeoutMs.getD (6 * 60 * 1000)) 0 fuel

/-! ## `useAppStore.ts` — the application state store -/

inductive ThemeMode where
  | light
  | dark
  deriving Repr, DecidableEq

/-- Record type `PromptRecord` of `src/state/types.ts`. -/
structure PromptRecord where
  id : String
  originalPrompt : String
  optimizedPrompt : Option String
  createdAt : String
  deriving Repr, DecidableEq

/-- Record type `VideoRecord` of `src/state/types.ts`. -/
structure VideoRecord where
  id : String
  prompt : String
  imageName : String
  videoUrl : String
  createdAt : String
  meta : Option (List (String × Json))

/-- The persisted fields of the zustand store state in `useAppStore.ts`. -/
structure AppState where
  theme : ThemeMode
  promptWebhook : String
  videoWebhook : String
  recentPrompts : List PromptRecord
  activePromptId : Option String
  videoLibrary : List VideoRecord

/-- The store's initial state (lines 29-34). -/
def initialAppState : AppState :=
  { theme := ThemeMode.dark
    promptWebhook := ""
    videoWebhook := ""
    recentPrompts := []
    activePromptId := none
    videoLibrary := [] }

/-- Function `savePrompt` (lines 40-47): drop any record with the same id, prepend the
new record, cap the list at 10, and mark the record active. -/
def savePrompt (record : PromptRecord) (state : AppState) : AppState :=
  let filtered := state.recentPrompts.filter fun item => item.id ≠ record.id
  { state with
    recentPrompts := (record :: filtered).take 10
    activePromptId := some record.id }

/-- Function `removePrompt` (lines 48-53): drop every record with the given id and
clear the active id when it was the removed one. -/
def removePrompt (id : String) (state : AppState) : AppState :=
  { state with
    recentPrompts := state.recentPrompts.filter fun item => item.id ≠ id
    activePromptId :=
      if state.activePromptId = some id then none else state.activePromptId }

/-- Function `saveVideo` (lines 55-62): drop any record with the same id, prepend the
new record, and cap the list at 20. -/
def saveVideo (record : VideoRecord) (state : AppState) : AppState :=
  let filtered := state.videoLibrary.filter fun item => item.id ≠ record.id
  { state with videoLibrary := (record :: filtered).take 20 }

/-- A save operation on the store, for stating invariants over sequences of
mutations. -/
inductive StoreOp where
  | saveP (record : PromptRecord)
  | saveV (record : VideoRecord)

/-- Apply one store operation. -/
def applyStoreOp (op : StoreOp) (state : AppState) : AppState :=
  match op with
  | StoreOp.saveP record => savePrompt record state
  | StoreOp.saveV record => saveVideo record state

/-- Apply a sequence of store operations, oldest first. -/
def applyStoreOps (ops : List StoreOp) (state : AppState) : AppState :=
  ops.foldl (fun s op => applyStoreOp op s) state

/-! ## `VideoSection.tsx` — the video submission flow -/

/-- The try-block of `handleSubmit` (`VideoSection.tsx`, lines 160-192) on an
already-parsed initial response body, with the status poll abstracted as a
function from the status URL to its outcome: resolve the video URL from the
initial response, poll when it is missing but a status URL is present, and
fail with the no-video-reference message when no truthy URL results. -/
def handleSubmitVideoUrl (data : Json)
    (poll : Json → Except String VideoStatusResult) : Except String Json :=
  match sendVideoWebhookBody data with
  | Except.error e => Except.error e
  | Except.ok initial =>
    let afterPoll : Except String (Option Json) :=
      if !Json.truthyOpt initial.videoUrl && Json.truthyOpt initial.statusUrl
      then
        match initial.statusUrl with
        | some statusUrl =>
          match poll statusUrl with
          | Except.error e => Except.error e
          | Except.ok result =>
            if result.status = "failed" then
              Except.error
                "Der Video-Job wurde vom Backend als fehlgeschlagen gemeldet."
            else Except.ok result.videoUrl
        | none => Except.ok initial.videoUrl
      else Except.ok initial.videoUrl
    match afterPoll with
    | Except.error e => Except.error e
    | Except.ok videoUrl =>
      if Json.truthyOpt videoUrl then
        match videoUrl with
        | some v => Except.ok v
        | none => Except.error "Die Antwort enthielt keinen Link zum Video."
      else Except.error "Die Antwort enthielt keinen Link zum Video."

/-- A user-visible notification emitted at the end of `handleSubmit`. -/
inductive VideoNotification where
  | videoReady
  | abortedStop
  | videoFailed (message : String)
  deriving Repr, DecidableEq

/-- The notification logic of `handleSubmit` (lines 220-242): success shows
the ready notification; an exception shows the yellow cancelled notification
when the abort signal fired, and the red failure notification otherwise. -/
def handleSubmitNotification (outcome : Except String Json)
    (signalAborted : Bool) : VideoNotification :=
  match outcome with
  | Except.ok _ => VideoNotification.videoReady
  | Except.error message =>
    if signalAborted then VideoNotification.abortedStop
    else VideoNotification.videoFailed message

/-! ## Store lemmas -/

/-- The store invariants maintained by the save operations: capped lengths and
pairwise-distinct record ids in both histories. -/
def storeInv (s : AppState) : Prop :=
  s.recentPrompts.length ≤ 10 ∧ s.videoLibrary.length ≤ 20 ∧
    (s.recentPrompts.map PromptRecord.id).Nodup ∧
    (s.videoLibrary.map VideoRecord.id).Nodup

theorem savePrompt_length_le (record : PromptRecord) (s : AppState) :
    (savePrompt record s).recentPrompts.length ≤ 10 := by
  simp only [savePrompt]
  rw [List.length_take]
  exact min_le_left _ _

theorem saveVideo_length_le (record : VideoRecord) (s : AppState) :
    (saveVideo record s).videoLibrary.length ≤ 20 := by
  simp only [saveVideo]
  rw [List.length_take]
  exact min_le_left _ _

theorem savePrompt_nodup (record : PromptRecord) (s : AppState)
    (h : (s.recentPrompts.map PromptRecord.id).Nodup) :
    ((savePrompt record s).recentPrompts.map PromptRecord.id).Nodup := by
  simp only [savePrompt]
  rw [List.map_take]
  refine List.Nodup.sublist (List.take_sublist _ _) ?_
  rw [List.map_cons, List.nodup_cons]
  constructor
  · intro hmem
    rcases List.mem_map.mp hmem with ⟨item, hitem, hid⟩
    have := (List.mem_filter.mp hitem).2
    simp only [decide_eq_true_eq] at this
    exact this hid
  · exact List.Nodup.sublist (List.Sublist.map _ (List.filter_sublist _)) h

theorem saveVideo_nodup (record : VideoRecord) (s : AppState)
    (h : (s.videoLibrary.map VideoRecord.id).Nodup) :
    ((saveVideo record s).videoLibrary.map VideoRecord.id).Nodup := by
  simp only [saveVideo]
  rw [List.map_take]
  refine List.Nodup.sublist (List.take_sublist _ _) ?_
  rw [List.map_cons, List.nodup_cons]
  constructor
  · intro hmem
    rcases List.mem_map.mp hmem with ⟨item, hitem, hid⟩
    have := (List.mem_filter.mp hitem).2
    simp only [decide_eq_true_eq] at this
    exact this hid
  · exact List.Nodup.sublist (List.Sublist.map _ (List.filter_sublist _)) h

theorem applyStoreOp_inv (op : StoreOp) (s : AppState) (h : storeInv s) :
    storeInv (applyStoreOp op s) := by
  obtain ⟨h1, h2, h3, h4⟩ := h
  cases op with
  | saveP record =>
    exact ⟨savePrompt_length_le record s, h2, savePrompt_nodup record s h3, h4⟩
  | saveV record =>
    exact ⟨h1, saveVideo_length_le record s, h3, saveVideo_nodup record s h4⟩

theorem applyStoreOps_inv (ops : List StoreOp) (s : AppState) (h : storeInv s) :
    storeInv (applyStoreOps ops s) := by
  induction ops generalizing s with
  | nil => exact h
  | cons op rest ih =>
    exact ih (applyStoreOp op s) (applyStoreOp_inv op s h)

theorem savePrompt_countP_eq_one (record : PromptRecord) (s : AppState) :
    (savePrompt record s).recentPrompts.countP
      (fun item => item.id == record.id) = 1 := by
  simp only [savePrompt]
  rw [List.take_succ_cons, List.countP_cons]
  have hzero :
      ((s.recentPrompts.filter fun item => item.id ≠ record.id).take 9).countP
        (fun item => item.id == record.id) = 0 := by
    rw [List.countP_eq_zero]
    intro a ha
    have hmem := List.Sublist.subset (List.take_sublist _ _) ha
    have := (List.mem_filter.mp hmem).2
    simp only [decide_eq_true_eq] at this
    simp [this]
  rw [hzero]
  simp

/-- C2: saving a prompt record replaces any record with the same id instead of
duplicating it (exactly one record with that id remains, and across any
sequence of saves every id occurs at most once) and marks it active; after any
sequence of savePrompt/saveVideo operations from the initial state, the prompt
history holds at most 10 records and the video library at most 20. -/
theorem save_replace_cap_active :
    (∀ (s : AppState) (record : PromptRecord),
        (savePrompt record s).recentPrompts.countP
          (fun item => item.id == record.id) = 1
      ∧ (savePrompt record s).activePromptId = some record.id)
  ∧ (∀ ops : List StoreOp,
        (applyStoreOps ops initialAppState).recentPrompts.length ≤ 10
      ∧ (applyStoreOps ops initialAppState).videoLibrary.length ≤ 20
      ∧ ((applyStoreOps ops initialAppState).recentPrompts.map
          PromptRecord.id).Nodup
      ∧ ((applyStoreOps ops initialAppState).videoLibrary.map
          VideoRecord.id).Nodup) := by
  constructor
  · intro s record
    exact ⟨savePrompt_countP_eq_one record s, rfl⟩
  · intro ops
    have hinit : storeInv initialAppState := by
      refine ⟨?_, ?_, ?_, ?_⟩ <;> simp [initialAppState]
    exact applyStoreOps_inv ops initialAppState hinit

/-- C10: `removePrompt id` removes exactly the prompt records whose id is
`id`, clears the active prompt id exactly when it pointed at the removed id,
and leaves the theme, both webhook URLs and the video library untouched. -/
theorem removePrompt_frame (s : AppState) (id : String) :
    (removePrompt id s).recentPrompts
        = s.recentPrompts.filter (fun item => item.id ≠ id)
  ∧ (∀ r : PromptRecord,
        r ∈ (removePrompt id s).recentPrompts
          ↔ r ∈ s.recentPrompts ∧ r.id ≠ id)
  ∧ (removePrompt id s).activePromptId
      = (if s.activePromptId = some id then none else s.activePromptId)
  ∧ (s.activePromptId ≠ some id →
      (removePrompt id s).activePromptId = s.activePromptId)
  ∧ (removePrompt id s).theme = s.theme
  ∧ (removePrompt id s).promptWebhook = s.promptWebhook
  ∧ (removePrompt id s).videoWebhook = s.videoWebhook
  ∧ (removePrompt id s).videoLibrary = s.videoLibrary := by
  refine ⟨rfl, ?_, rfl, ?_, rfl, rfl, rfl, rfl⟩
  · intro r
    simp [removePrompt, List.mem_filter]
  · intro h
    simp [removePrompt, h]

/-- C3 counterexample: for the bare response string " a" - a non-empty
string - the client returns the trimmed "a", not " a" itself as the claim
states. -/
theorem callPromptWebhook_returns_trim_cex :
    callPromptWebhookBody (Json.str " a") = Except.ok "a"
  ∧ callPromptWebhookBody (Json.str " a") ≠ Except.ok " a" := by
  have h : callPromptWebhookBody (Json.str " a") = Except.ok "a" := rfl
  refine ⟨h, ?_⟩
  rw [h]
  intro heq
  injection heq with h'
  exact absurd h' (by decide)

/-- C3 (amended): for each of the shapes {output: x}, {text: x},
{message: x}, the bare string x, and [{prompt: x}], with x a non-empty
string, the client succeeds and returns the trimmed text x.trim() (hence x
itself exactly when x carries no leading or trailing whitespace); in an array
the first entry yielding a non-empty extraction wins, entries yielding no or
an empty extraction being skipped. -/
theorem callPromptWebhook_extracts (x : String) (hx : x ≠ "") :
    callPromptWebhookBody (Json.obj [("output", Json.str x)])
        = Except.ok (jsTrim x)
  ∧ callPromptWebhookBody (Json.obj [("text", Json.str x)])
        = Except.ok (jsTrim x)
  ∧ callPromptWebhookBody (Json.obj [("message", Json.str x)])
        = Except.ok (jsTrim x)
  ∧ callPromptWebhookBody (Json.str x) = Except.ok (jsTrim x)
  ∧ callPromptWebhookBody (Json.arr [Json.obj [("prompt", Json.str x)]])
        = Except.ok (jsTrim x)
  ∧ (∀ (entry : Json) (rest : List Json) (s : String),
        extractPrompt entry = some s → s ≠ "" →
          extractPromptFromArray (entry :: rest) = some s)
  ∧ (∀ (entry : Json) (rest : List Json),
        extractPrompt entry = none →
          extractPromptFromArray (entry :: rest) = extractPromptFromArray rest)
  ∧ (∀ (entry : Json) (rest : List Json),
        extractPrompt entry = some "" →
          extractPromptFromArray (entry :: rest)
            = extractPromptFromArray rest) := by
  refine ⟨?_, ?_, ?_, ?_, ?_, ?_, ?_, ?_⟩
  · have h : callPromptWebhookBody (Json.obj [("output", Json.str x)])
        = if x = "" then
            Except.error "Webhook-Antwort enthielt keinen Prompt-Text."
          else Except.ok (jsTrim x) := rfl
    rw [h, if_neg hx]
  · have h : callPromptWebhookBody (Json.obj [("text", Json.str x)])
        = if x = "" then
            Except.error "Webhook-Antwort enthielt keinen Prompt-Text."
          else Except.ok (jsTrim x) := rfl
    rw [h, if_neg hx]
  · have h : callPromptWebhookBody (Json.obj [("message", Json.str x)])
        = if x = "" then
            Except.error "Webhook-Antwort enthielt keinen Prompt-Text."
          else Except.ok (jsTrim x) := rfl
    rw [h, if_neg hx]
  · have h : callPromptWebhookBody (Json.str x)
        = if x = "" then
            Except.error "Webhook-Antwort enthielt keinen Prompt-Text."
          else Except.ok (jsTrim x) := rfl
    rw [h, if_neg hx]
  · have ha : extractPromptFromArray [Json.obj [("prompt", Json.str x)]]
        = if x ≠ "" then some x else extractPromptFromArray [] := rfl
    rw [if_pos hx] at ha
    have h : callPromptWebhookBody
          (Json.arr [Json.obj [("prompt", Json.str x)]])
        = match extractPromptFromArray [Json.obj [("prompt", Json.str x)]] with
          | some s =>
            if s = "" then
              Except.error "Webhook-Antwort enthielt keinen Prompt-Text."
            else Except.ok (jsTrim s)
          | none =>
            Except.error "Webhook-Antwort enthielt keinen Prompt-Text." := rfl
    rw [h, ha]
    exact if_neg hx
  · intro entry rest s hs hsne
    simp [extractPromptFromArray, hs, hsne]
  · intro entry rest hnone
    simp [extractPromptFromArray, hnone]
  · intro entry rest hempty
    simp [extractPromptFromArray, hempty]

/-- C3 witness: the amended theorem applied at x = "x". -/
theorem callPromptWebhook_extracts_witness :
    callPromptWebhookBody (Json.str "x") = Except.ok "x"
  ∧ callPromptWebhookBody (Json.arr [Json.obj [("prompt", Json.str "x")]])
      = Except.ok "x" := by
  have h := callPromptWebhook_extracts "x" (by decide)
  exact ⟨h.2.2.2.1, h.2.2.2.2.1⟩

/-- C10 witness: the frame theorem applied to a concrete state whose active
prompt is not the removed one. -/
theorem removePrompt_frame_witness :
    (removePrompt "a"
      { theme := ThemeMode.dark, promptWebhook := "", videoWebhook := "",
        recentPrompts := [], activePromptId := some "b",
        videoLibrary := [] }).activePromptId = some "b" :=
  (removePrompt_frame
    { theme := ThemeMode.dark, promptWebhook := "", videoWebhook := "",
      recentPrompts := [], activePromptId := some "b",
      videoLibrary := [] } "a").2.2.2.1 (by decide)

theorem statusValue_of_no_status_state (fields : List (String × Json))
    (hs : fields.lookup "status" = none) (ht : fields.lookup "state" = none) :
    statusValue fields
      = (if (Json.truthyOpt (fields.lookup "videoUrl")
              || Json.truthyOpt (fields.lookup "url")) = true then
          Json.str "completed"
        else Json.str "processing") := by
  simp only [statusValue, hs, ht, Json.coalesce]

/-- C9: a status response object carrying neither a `status` nor a `state`
field raises no shape error: it is classified as completed exactly when it has
a truthy `videoUrl` or `url` field, and as processing otherwise, in which case
the poll loop issues the next request instead of stopping. -/
theorem poll_status_default_classification (fields : List (String × Json))
    (hs : fields.lookup "status" = none) (ht : fields.lookup "state" = none) :
    (statusValue fields = Json.str "completed"
       ↔ (Json.truthyOpt (fields.lookup "videoUrl")
            || Json.truthyOpt (fields.lookup "url")) = true)
  ∧ ((Json.truthyOpt (fields.lookup "videoUrl")
        || Json.truthyOpt (fields.lookup "url")) = false →
      statusValue fields = Json.str "processing")
  ∧ (∀ (env : Nat → Json) (ab : Nat → Bool) (interval timeout fuel : Nat),
      env 0 = Json.obj fields → ab 0 = false →
      (Json.truthyOpt (fields.lookup "videoUrl")
        || Json.truthyOpt (fields.lookup "url")) = true →
      (pollVideoStatusLoop env ab interval timeout 0 (fuel + 1)).1
        = some (Except.ok (completedStatus fields)))
  ∧ (∀ (env : Nat → Json) (ab : Nat → Bool) (interval timeout fuel : Nat),
      env 0 = Json.obj fields → ab 0 = false →
      (Json.truthyOpt (fields.lookup "videoUrl")
        || Json.truthyOpt (fields.lookup "url")) = false →
      pollVideoStatusLoop env ab interval timeout 0 (fuel + 1)
        = ((pollVideoStatusLoop env ab interval timeout 1 fuel).1,
            0 :: (pollVideoStatusLoop env ab interval timeout 1 fuel).2)) := by
  have key := statusValue_of_no_status_state fields hs ht
  refine ⟨?_, ?_, ?_, ?_⟩
  · rw [key]
    cases hb : (Json.truthyOpt (fields.lookup "videoUrl")
        || Json.truthyOpt (fields.lookup "url"))
    · simp only [hb, Bool.false_eq_true, if_false]
      constructor
      · intro h
        injection h with h'
        exact absurd h' (by decide)
      · intro h
        exact absurd h (by decide)
    · simp [hb]
  · intro hb
    rw [key, hb]
    simp
  · intro env ab interval timeout fuel henv hab hb
    rw [pollVideoStatusLoop]
    simp only [henv, hab, Bool.false_eq_true, if_false]
    rw [key, hb]
    have hc : Json.strictEqStr (Json.str "completed") "completed" = true := by
      decide
    simp [hc]
  · intro env ab interval timeout fuel henv hab hb
    rw [pollVideoStatusLoop]
    simp only [henv, hab, Bool.false_eq_true, if_false]
    rw [key, hb]
    have h1 : Json.strictEqStr (Json.str "processing") "completed" = false := by
      decide
    have h2 : Json.strictEqStr (Json.str "processing") "failed" = false := by
      decide
    simp [h1, h2]

/-- C9 witness: a response with only a `videoUrl` field is classified
completed; one with only an unrelated field keeps the loop polling. -/
theorem poll_status_default_classification_witness :
    statusValue [("videoUrl", Json.str "https://v/a.mp4")]
        = Json.str "completed"
  ∧ statusValue [("note", Json.str "warming up")] = Json.str "processing" := by
  constructor
  · exact (poll_status_default_classification
      [("videoUrl", Json.str "https://v/a.mp4")] rfl rfl).1.mpr (by decide)
  · exact (poll_status_default_classification
      [("note", Json.str "warming up")] rfl rfl).2.1 (by decide)

theorem pickString_eq_none_of_lookups (source : List (String × Json))
    (keys : List String) (h : ∀ k ∈ keys, source.lookup k = none) :
    pickString source keys = none := by
  induction keys with
  | nil => rfl
  | cons key rest ih =>
    have hk : source.lookup key = none := h key (List.mem_cons_self key rest)
    simp only [pickString, hk]
    exact ih fun k hmem => h k (List.mem_cons_of_mem key hmem)

/-- C1: a video-webhook response object carrying no direct video reference
under any URL alias key, no embedded base64 payload under any base64 alias
key, and no status-polling reference (`statusUrl`/`status_url`/`statusURI`)
makes the video flow fail with the no-video-reference error instead of
returning a result. -/
theorem no_video_reference_error (fields : List (String × Json))
    (poll : Json → Except String VideoStatusResult)
    (hurl : ∀ k ∈ VIDEO_URL_KEYS, fields.lookup k = none)
    (hb64 : ∀ k ∈ VIDEO_BASE64_KEYS, fields.lookup k = none)
    (hs1 : fields.lookup "statusUrl" = none)
    (hs2 : fields.lookup "status_url" = none)
    (hs3 : fields.lookup "statusURI" = none) :
    handleSubmitVideoUrl (Json.obj fields) poll
      = Except.error "Die Antwort enthielt keinen Link zum Video." := by
  have hu : pickString fields VIDEO_URL_KEYS = none :=
    pickString_eq_none_of_lookups _ _ hurl
  have hbb : pickString fields VIDEO_BASE64_KEYS = none :=
    pickString_eq_none_of_lookups _ _ hb64
  have hnorm : (normalizeVideoPayload fields).videoUrl = none := by
    simp [normalizeVideoPayload, hu, hbb]
  have hv1 : fields.lookup "videoUrl" = none := by
    refine hurl "videoUrl" ?_
    simp [VIDEO_URL_KEYS]
  have hv2 : fields.lookup "video_url" = none := by
    refine hurl "video_url" ?_
    simp [VIDEO_URL_KEYS]
  have hv3 : fields.lookup "url" = none := by
    refine hurl "url" ?_
    simp [VIDEO_URL_KEYS]
  simp [handleSubmitVideoUrl, sendVideoWebhookBody, hnorm, hv1, hv2, hv3,
    hs1, hs2, hs3, Json.coalesce, Json.truthyOpt]

/-- C1 witness: a response holding only a job id fails with the
no-video-reference error. -/
theorem no_video_reference_error_witness :
    handleSubmitVideoUrl (Json.obj [("jobId", Json.str "1")])
        (fun _ => Except.error "unused")
      = Except.error "Die Antwort enthielt keinen Link zum Video." :=
  no_video_reference_error [("jobId", Json.str "1")]
    (fun _ => Except.error "unused")
    (by intro k hk; fin_cases hk <;> rfl)
    (by intro k hk; fin_cases hk <;> rfl) rfl rfl rfl

theorem pickString_ne_empty {source : List (String × Json)}
    {keys : List String} {s : String}
    (h : pickString source keys = some s) : s ≠ "" := by
  induction keys with
  | nil => exact absurd h (by simp [pickString])
  | cons key rest ih =>
    rw [pickString] at h
    revert h
    cases hl : source.lookup key with
    | none => exact fun h => ih h
    | some v =>
      cases v with
      | str sv =>
        intro h
        dsimp only at h
        by_cases he : jsTrim sv ≠ ""
        · rw [if_pos he] at h
          injection h with h'
          rw [← h']
          exact he
        · rw [if_neg he] at h
          exact ih h
      | null => exact fun h => ih h
      | bool b => exact fun h => ih h
      | num n => exact fun h => ih h
      | arr a => exact fun h => ih h
      | obj o => exact fun h => ih h

/-- C4 counterexample: the string "data:x" under the base64 alias key
`videoBase64` is not decodable as base64, yet normalization yields a video
reference: a value starting with `data:` is passed through unvalidated
(line 71-73), so the claim's "undecodable yields no reference" fails. -/
theorem base64_undecodable_reference_cex :
    atobAccepts (stripWhitespace "data:x") = false
  ∧ (normalizeVideoPayload [("videoBase64", Json.str "data:x")]).videoUrl
      = some "data:x" :=
  ⟨by decide, rfl⟩

/-- C4 (amended): when the base64 alias lookup yields a (trimmed, non-empty)
string and no URL alias matches, then: a string not starting with `data:`
that atob accepts yields the embedded data URL
`data:<mime>;base64,<payload>` with the detected or default `video/mp4` media
type; a string not starting with `data:` that atob rejects yields no video
reference; and a string starting with `data:` is passed through unchanged
without validation. -/
theorem normalizeVideoPayload_base64 (fields : List (String × Json))
    (b64 : String)
    (hurl : pickString fields VIDEO_URL_KEYS = none)
    (hpick : pickString fields VIDEO_BASE64_KEYS = some b64)
    (htr : jsTrim b64 = b64) :
    (jsStartsWith b64 "data:" = false →
      atobAccepts (stripWhitespace b64) = true →
        (normalizeVideoPayload fields).videoUrl
          = some ("data:"
              ++ (pickString fields MIME_TYPE_KEYS).getD "video/mp4"
              ++ ";base64," ++ stripWhitespace b64))
  ∧ (jsStartsWith b64 "data:" = false →
      atobAccepts (stripWhitespace b64) = false →
        (normalizeVideoPayload fields).videoUrl = none)
  ∧ (jsStartsWith b64 "data:" = true →
      (normalizeVideoPayload fields).videoUrl = some b64) := by
  have hne : b64 ≠ "" := pickString_ne_empty hpick
  have hmime : ((pickString fields MIME_TYPE_KEYS).getD "video/mp4") ≠ "" := by
    cases hm : pickString fields MIME_TYPE_KEYS with
    | none => decide
    | some m => simpa using pickString_ne_empty hm
  refine ⟨?_, ?_, ?_⟩
  · intro hpre hacc
    simp [normalizeVideoPayload, hurl, hpick, createDataUrlFromBase64, hne,
      htr, hpre, hacc, hmime]
  · intro hpre hacc
    simp [normalizeVideoPayload, hurl, hpick, createDataUrlFromBase64, hne,
      htr, hpre, hacc, hmime]
  · intro hpre
    simp [normalizeVideoPayload, hurl, hpick, createDataUrlFromBase64, hne,
      htr, hpre]

/-- C4 witness: the amended theorem applied to a valid payload "AAAA" (data
URL produced with the default media type) and to the undecodable "!!" (no
reference). -/
theorem normalizeVideoPayload_base64_witness :
    (normalizeVideoPayload [("videoBase64", Json.str "AAAA")]).videoUrl
        = some ("data:" ++ "video/mp4" ++ ";base64," ++ stripWhitespace "AAAA")
  ∧ (normalizeVideoPayload [("videoBase64", Json.str "!!")]).videoUrl
      = none := by
  have h1 := normalizeVideoPayload_base64 [("videoBase64", Json.str "AAAA")]
    "AAAA" rfl rfl rfl
  have h2 := normalizeVideoPayload_base64 [("videoBase64", Json.str "!!")]
    "!!" rfl rfl rfl
  exact ⟨h1.1 (by decide) (by decide), h2.2.1 (by decide) (by decide)⟩

theorem lookup_filter_of_keep {p : String × Json → Bool}
    {l : List (String × Json)} {k : String} (h : ∀ v, p (k, v) = true) :
    (l.filter p).lookup k = l.lookup k := by
  induction l with
  | nil => rfl
  | cons hd tl ih =>
    obtain ⟨k', v'⟩ := hd
    by_cases hk : k = k'
    · subst hk
      rw [List.filter_cons, h v']
      simp [List.lookup, ih]
    · have hbeq : (k == k') = false := beq_eq_false_iff_ne.mpr hk
      rw [List.filter_cons]
      by_cases hp : p (k', v') = true
      · rw [if_pos hp]
        simp [List.lookup, hbeq, ih]
      · rw [if_neg hp]
        simp [List.lookup, hbeq, ih]

theorem lookup_filter_of_drop {p : String × Json → Bool}
    {l : List (String × Json)} {k : String} (h : ∀ v, p (k, v) = false) :
    (l.filter p).lookup k = none := by
  induction l with
  | nil => rfl
  | cons hd tl ih =>
    obtain ⟨k', v'⟩ := hd
    rw [List.filter_cons]
    by_cases hp : p (k', v') = true
    · rw [if_pos hp]
      have hk : ¬(k = k') := by
        intro hkk
        subst hkk
        rw [h v'] at hp
        exact Bool.false_ne_true hp
      have hbeq : (k == k') = false := beq_eq_false_iff_ne.mpr hk
      simp [List.lookup, hbeq, ih]
    · rw [if_neg hp]
      exact ih

theorem lookup_append_eq (l1 l2 : List (String × Json)) (k : String) :
    (l1 ++ l2).lookup k
      = (match l1.lookup k with
          | some v => some v
          | none => l2.lookup k) := by
  induction l1 with
  | nil => simp [List.lookup]
  | cons hd tl ih =>
    by_cases hk : k == hd.1 <;> simp [List.lookup, hk, ih]

theorem lookup_spreadMerge (a b : List (String × Json)) (k : String) :
    (spreadMerge a b).lookup k
      = (match b.lookup k with
          | some w => some w
          | none => a.lookup k) := by
  unfold spreadMerge
  rw [lookup_append_eq]
  cases hb : b.lookup k with
  | some w =>
    have hdrop : ∀ v : Json, ((b.lookup (k, v).1).isNone : Bool) = false := by
      intro v
      simp [hb]
    rw [lookup_filter_of_drop hdrop]
  | none =>
    have hkeep : ∀ v : Json, ((b.lookup (k, v).1).isNone : Bool) = true := by
      intro v
      simp [hb]
    rw [lookup_filter_of_keep hkeep]
    cases ha : a.lookup k <;> simp [hb, ha]


theorem sanitizeKeep_of_not_excluded {k : String}
    (hk : k ∉ EXCLUDED_META_KEYS) (w : Json) : sanitizeKeep (k, w) = true := by
  cases w <;> simp [sanitizeKeep, hk]

theorem combineMeta_lookup (fields : List (String × Json)) (k : String)
    (v : Json) (hk : k ∉ EXCLUDED_META_KEYS) (hv : fields.lookup k = some v) :
    ∃ m, combineMeta fields = some m
      ∧ m.lookup k
          = some (match fields.lookup "meta" with
              | some (Json.obj nested) => (nested.lookup k).getD v
              | _ => v) := by
  have hkeep : ∀ w : Json, sanitizeKeep (k, w) = true :=
    sanitizeKeep_of_not_excluded hk
  have hbaselk : (fields.filter sanitizeKeep).lookup k = some v := by
    rw [lookup_filter_of_keep hkeep, hv]
  have hbase : sanitizeMeta fields = some (fields.filter sanitizeKeep) := by
    unfold sanitizeMeta
    rw [if_neg]
    intro hempty
    rw [List.isEmpty_iff] at hempty
    have h0 : (fields.filter sanitizeKeep).lookup k = none := by
      rw [hempty]
      rfl
    rw [hbaselk] at h0
    exact Option.noConfusion h0
  unfold combineMeta
  rw [hbase]
  cases hm : fields.lookup "meta" with
  | none =>
    dsimp only
    refine ⟨_, rfl, ?_⟩
    rw [lookup_spreadMerge]
    simp [List.lookup, hbaselk]
  | some mv =>
    cases mv with
    | obj nested =>
      dsimp only
      cases hsn : sanitizeMeta nested with
      | some nl =>
        refine ⟨_, rfl, ?_⟩
        have hnl : nl = nested.filter sanitizeKeep := by
          unfold sanitizeMeta at hsn
          by_cases he : (nested.filter sanitizeKeep).isEmpty = true
          · rw [if_pos he] at hsn
            exact Option.noConfusion hsn
          · rw [if_neg he] at hsn
            injection hsn with hsn'
            exact hsn'.symm
        rw [lookup_spreadMerge, hnl]
        simp only [Option.getD_some]
        rw [lookup_filter_of_keep hkeep]
        cases hn : nested.lookup k with
        | some w => simp [hn]
        | none => simp [hn, hbaselk]
      | none =>
        refine ⟨_, rfl, ?_⟩
        have hnone : nested.lookup k = none := by
          unfold sanitizeMeta at hsn
          by_cases he : (nested.filter sanitizeKeep).isEmpty = true
          · rw [List.isEmpty_iff] at he
            have hlk := lookup_filter_of_keep (l := nested) (k := k) hkeep
            rw [he] at hlk
            cases hn : nested.lookup k with
            | none => rfl
            | some w =>
              rw [hn] at hlk
              exact Option.noConfusion hlk.symm
          · rw [if_neg he] at hsn
            exact Option.noConfusion hsn
        rw [lookup_spreadMerge]
        simp [List.lookup, hbaselk, hnone]
    | null =>
      dsimp only
      refine ⟨_, rfl, ?_⟩
      rw [lookup_spreadMerge]
      simp [List.lookup, hbaselk]
    | bool b =>
      dsimp only
      refine ⟨_, rfl, ?_⟩
      rw [lookup_spreadMerge]
      simp [List.lookup, hbaselk]
    | num n =>
      dsimp only
      refine ⟨_, rfl, ?_⟩
      rw [lookup_spreadMerge]
      simp [List.lookup, hbaselk]
    | str s =>
      dsimp only
      refine ⟨_, rfl, ?_⟩
      rw [lookup_spreadMerge]
      simp [List.lookup, hbaselk]
    | arr a =>
      dsimp only
      refine ⟨_, rfl, ?_⟩
      rw [lookup_spreadMerge]
      simp [List.lookup, hbaselk]

/-- C5: every field of a video-webhook response object whose key is not a
video-payload alias is preserved in the returned metadata, merged with the
contents of a nested `meta` record; on a key present in both, the nested
value takes precedence. -/
theorem sendVideoWebhook_meta_preserved (fields : List (String × Json))
    (k : String) (v : Json)
    (_hnd : (fields.map Prod.fst).Nodup)
    (hk : k ∉ EXCLUDED_META_KEYS)
    (hv : fields.lookup k = some v) :
    ∃ resp, sendVideoWebhookBody (Json.obj fields) = Except.ok resp
      ∧ ∃ m, resp.meta = some m
        ∧ m.lookup k
            = some (match fields.lookup "meta" with
                | some (Json.obj nested) => (nested.lookup k).getD v
                | _ => v) := by
  obtain ⟨m, hm, hlk⟩ := combineMeta_lookup fields k v hk hv
  exact ⟨_, rfl, m, hm, hlk⟩

/-- C5 witness: a field `note` survives into the merged metadata and is
overridden by the nested `meta.note` value. -/
theorem sendVideoWebhook_meta_preserved_witness :
    ∃ resp, sendVideoWebhookBody
        (Json.obj [("note", Json.str "outer"),
          ("meta", Json.obj [("note", Json.str "inner")])])
        = Except.ok resp
      ∧ ∃ m, resp.meta = some m
        ∧ m.lookup "note" = some (Json.str "inner") := by
  have h := sendVideoWebhook_meta_preserved
    [("note", Json.str "outer"),
      ("meta", Json.obj [("note", Json.str "inner")])]
    "note" (Json.str "outer") (by decide) (by decide) rfl
  simpa using h

/-- C6: a status endpoint answering `processing`, `processing`, then
`completed` with a video URL makes the poll resolve with status completed and
that URL, issuing exactly three GET requests separated by the configured
interval (`intervalMs`, default 5000 ms). -/
theorem poll_three_requests (env : Nat → Json) (options : PollOptions)
    (url : String)
    (h0 : env 0 = Json.obj [("status", Json.str "processing")])
    (h1 : env 1 = Json.obj [("status", Json.str "processing")])
    (h2 : env 2 = Json.obj [("status", Json.str "completed"),
        ("videoUrl", Json.str url)])
    (htrim : jsTrim url = url) (hne : url ≠ "")
    (hit : options.intervalMs.getD 5000
        ≤ options.timeoutMs.getD (6 * 60 * 1000)) :
    pollVideoStatusModel env (fun _ => false) options 3
      = (some (Except.ok (completedStatus [("status", Json.str "completed"),
          ("videoUrl", Json.str url)])),
          [0, options.intervalMs.getD 5000,
            2 * options.intervalMs.getD 5000])
    ∧ (completedStatus [("status", Json.str "completed"),
        ("videoUrl", Json.str url)]).status = "completed"
    ∧ (completedStatus [("status", Json.str "completed"),
        ("videoUrl", Json.str url)]).videoUrl = some (Json.str url) := by
  set interval := options.intervalMs.getD 5000 with hintdef
  set timeout := options.timeoutMs.getD (6 * 60 * 1000) with htimedef
  have hsp : statusValue [("status", Json.str "processing")]
      = Json.str "processing" := rfl
  have hsc : statusValue [("status", Json.str "completed"),
      ("videoUrl", Json.str url)] = Json.str "completed" := rfl
  have hpc : Json.strictEqStr (Json.str "processing") "completed" = false := by
    decide
  have hpf : Json.strictEqStr (Json.str "processing") "failed" = false := by
    decide
  have hcc : Json.strictEqStr (Json.str "completed") "completed" = true := by
    decide
  have hnt0 : ¬ (timeout < 0 * interval) := by omega
  have hnt1 : ¬ (timeout < 1 * interval) := by omega
  have hpick : pickString [("status", Json.str "completed"),
      ("videoUrl", Json.str url)] VIDEO_URL_KEYS = some url := by
    have hstep : pickString [("status", Json.str "completed"),
        ("videoUrl", Json.str url)] VIDEO_URL_KEYS
        = if jsTrim url ≠ "" then some (jsTrim url)
          else pickString [("status", Json.str "completed"),
            ("videoUrl", Json.str url)]
            ["video_url", "url", "sora_video_result", "result"] := rfl
    rw [hstep, htrim]
    exact if_pos hne
  have hnorm : (normalizeVideoPayload [("status", Json.str "completed"),
      ("videoUrl", Json.str url)]).videoUrl = some url := by
    dsimp only [normalizeVideoPayload]
    rw [hpick]
  refine ⟨?_, rfl, ?_⟩
  · show pollVideoStatusLoop env (fun _ => false) interval timeout 0 3
        = (some (Except.ok (completedStatus
            [("status", Json.str "completed"), ("videoUrl", Json.str url)])),
          [0, interval, 2 * interval])
    rw [pollVideoStatusLoop]
    simp only [h0, hsp, hpc, hpf, Bool.false_eq_true, if_false, hnt0]
    rw [pollVideoStatusLoop]
    simp only [h1, hsp, hpc, hpf, Bool.false_eq_true, if_false, hnt1]
    rw [pollVideoStatusLoop]
    simp only [h2, hsc, hcc, if_true]
    simp
  · dsimp only [completedStatus]
    rw [hnorm]
    rfl

/-- C6 witness: with interval 5000 ms the three requests happen at 0, 5000
and 10000 ms. -/
theorem poll_three_requests_witness :
    (pollVideoStatusModel
      (fun i => if i < 2 then Json.obj [("status", Json.str "processing")]
        else Json.obj [("status", Json.str "completed"),
          ("videoUrl", Json.str "https://example.com/v.mp4")])
      (fun _ => false)
      { intervalMs := some 5000, timeoutMs := some (8 * 60 * 1000) } 3).2
      = [0, 5000, 10000] := by
  have h := poll_three_requests
    (fun i => if i < 2 then Json.obj [("status", Json.str "processing")]
      else Json.obj [("status", Json.str "completed"),
        ("videoUrl", Json.str "https://example.com/v.mp4")])
    { intervalMs := some 5000, timeoutMs := some (8 * 60 * 1000) }
    "https://example.com/v.mp4" rfl rfl rfl rfl (by decide) (by decide)
  rw [h.1]
  rfl

theorem pollLoop_timeout_of_nonterminal (env : Nat → Json)
    (interval timeout : Nat)
    (hterm : ∀ i, ∃ fields, env i = Json.obj fields
      ∧ Json.strictEqStr (statusValue fields) "completed" = false
      ∧ Json.strictEqStr (statusValue fields) "failed" = false) :
    ∀ (fuel i : Nat), timeout < (i + fuel) * interval →
      (pollVideoStatusLoop env (fun _ => false) interval timeout i
          (fuel + 1)).1
        = some (Except.error "Timeout beim Abfragen des Video-Status") := by
  intro fuel
  induction fuel with
  | zero =>
    intro i hlt
    obtain ⟨fields, hf, hc, hfl⟩ := hterm i
    have hlt' : timeout < i * interval := by
      have : i + 0 = i := rfl
      rw [this] at hlt
      exact hlt
    rw [pollVideoStatusLoop]
    simp [hf, hc, hfl, hlt']
  | succ n ih =>
    intro i hlt
    obtain ⟨fields, hf, hc, hfl⟩ := hterm i
    rw [pollVideoStatusLoop]
    by_cases ht : timeout < i * interval
    · simp [hf, hc, hfl, ht]
    · simp only [hf, hc, hfl, Bool.false_eq_true, if_false, ht]
      have harith : (i + 1 + n) * interval = (i + (n + 1)) * interval := by
        ring_nf
      have := ih (i + 1) (by rw [harith]; exact hlt)
      simpa using this

/-- C7: against a status endpoint whose responses are never terminal (no
response classifies as completed or failed), the poll fails with the timeout
error once the elapsed time exceeds the configured deadline (`timeoutMs`,
default 6 minutes). -/
theorem poll_nonterminal_times_out (env : Nat → Json) (options : PollOptions)
    (hterm : ∀ i, ∃ fields, env i = Json.obj fields
      ∧ Json.strictEqStr (statusValue fields) "completed" = false
      ∧ Json.strictEqStr (statusValue fields) "failed" = false)
    (hpos : 0 < options.intervalMs.getD 5000) :
    (pollVideoStatusModel env (fun _ => false) options
        (options.timeoutMs.getD (6 * 60 * 1000)
          / options.intervalMs.getD 5000 + 2)).1
      = some (Except.error "Timeout beim Abfragen des Video-Status") := by
  set interval := options.intervalMs.getD 5000 with hintdef
  set timeout := options.timeoutMs.getD (6 * 60 * 1000) with htimedef
  have hbound : timeout < (0 + (timeout / interval + 1)) * interval := by
    have h2 : timeout % interval < interval := Nat.mod_lt timeout hpos
    calc timeout
        = interval * (timeout / interval) + timeout % interval :=
          (Nat.div_add_mod timeout interval).symm
      _ < interval * (timeout / interval) + interval := by omega
      _ = (0 + (timeout / interval + 1)) * interval := by ring
  exact pollLoop_timeout_of_nonterminal env interval timeout hterm
    (timeout / interval + 1) 0 hbound

/-- C7 witness: a stream of `processing` responses with interval 5000 ms and
timeout 20000 ms ends in the timeout error. -/
theorem poll_nonterminal_times_out_witness :
    (pollVideoStatusModel
        (fun _ => Json.obj [("status", Json.str "processing")])
        (fun _ => false)
        { intervalMs := some 5000, timeoutMs := some 20000 } 6).1
      = some (Except.error "Timeout beim Abfragen des Video-Status") := by
  have h := poll_nonterminal_times_out
    (fun _ => Json.obj [("status", Json.str "processing")])
    { intervalMs := some 5000, timeoutMs := some 20000 }
    (fun _ => ⟨[("status", Json.str "processing")], rfl, by decide, by decide⟩)
    (by decide)
  exact h

theorem pollLoop_abort_requests (env : Nat → Json) (aborted : Nat → Bool)
    (interval timeout k : Nat)
    (hmono : ∀ m n, m ≤ n → aborted m = true → aborted n = true)
    (hk : aborted k = true) :
    ∀ (fuel i : Nat),
      (pollVideoStatusLoop env aborted interval timeout i fuel).2.length
        ≤ k - i := by
  intro fuel
  induction fuel with
  | zero =>
    intro i
    rw [pollVideoStatusLoop]
    simp
  | succ n ih =>
    intro i
    by_cases hab : aborted i = true
    · rw [pollVideoStatusLoop]
      simp [hab]
    · have hik : i < k := by
        by_contra hnk
        exact hab (hmono k i (by omega) hk)
      have habf : aborted i = false := by
        cases h : aborted i with
        | false => rfl
        | true => exact absurd h hab
      rw [pollVideoStatusLoop]
      cases henv : env i with
      | obj fields =>
        by_cases hc : Json.strictEqStr (statusValue fields) "completed" = true
        · simp [habf, hc]
          omega
        · by_cases hf : Json.strictEqStr (statusValue fields) "failed" = true
          · simp [habf, hc, hf]
            omega
          · by_cases htm : timeout < i * interval
            · simp [habf, hc, hf, htm]
              omega
            · simp only [habf, hc, hf, htm, Bool.false_eq_true, if_false,
                List.length_cons]
              have := ih (i + 1)
              omega
      | null =>
        simp [habf]
        omega
      | bool b =>
        simp [habf]
        omega
      | num m =>
        simp [habf]
        omega
      | str s =>
        simp [habf]
        omega
      | arr a =>
        simp [habf]
        omega

/-- C8: once the cancellation signal has fired (it is monotone: it never
resets), the poll loop issues no further GET request - the signal is checked
before each request, an aborted check throws immediately with no request, and
at most `k` requests happen in total when the signal is set from iteration
`k` on; the surrounding video flow maps an exception with the signal aborted
to the cancelled notification, never to the failure notification. -/
theorem abort_stops_polling (env : Nat → Json) (aborted : Nat → Bool)
    (interval timeout k fuel : Nat)
    (hmono : ∀ m n, m ≤ n → aborted m = true → aborted n = true)
    (hk : aborted k = true) :
    ((pollVideoStatusLoop env aborted interval timeout 0 fuel).2.length ≤ k)
  ∧ (∀ (i f : Nat), aborted i = true →
      pollVideoStatusLoop env aborted interval timeout i (f + 1)
        = (some (Except.error "Abgebrochen"), []))
  ∧ (∀ message : String,
      handleSubmitNotification (Except.error message) true
        = VideoNotification.abortedStop)
  ∧ (∀ (message m : String),
      handleSubmitNotification (Except.error message) true
        ≠ VideoNotification.videoFailed m) := by
  refine ⟨?_, ?_, ?_, ?_⟩
  · have h := pollLoop_abort_requests env aborted interval timeout k hmono hk
      fuel 0
    omega
  · intro i f hab
    rw [pollVideoStatusLoop]
    simp [hab]
  · intro message
    rfl
  · intro message m
    simp [handleSubmitNotification]

/-- C8 witness: with a signal that fires from iteration 1 on, at most one
request is issued, and the cancelled notification is not the failure one. -/
theorem abort_stops_polling_witness :
    ((pollVideoStatusLoop
        (fun _ => Json.obj [("status", Json.str "processing")])
        (fun i => decide (1 ≤ i)) 5000 20000 0 10).2.length ≤ 1)
  ∧ handleSubmitNotification (Except.error "Abgebrochen") true
      ≠ VideoNotification.videoFailed "Abgebrochen" := by
  have hmono : ∀ m n, m ≤ n → (fun i => decide (1 ≤ i)) m = true →
      (fun i => decide (1 ≤ i)) n = true := by
    intro m n hmn hm
    simp only [decide_eq_true_eq] at *
    omega
  have h := abort_stops_polling
    (fun _ => Json.obj [("status", Json.str "processing")])
    (fun i => decide (1 ≤ i)) 5000 20000 1 10 hmono (by decide)
  exact ⟨h.1, h.2.2.2 "Abgebrochen" "Abgebrochen"⟩
